import Mathlib

/-!
Verification development for the SD WebUI extension-management backend
(`src/app/api/extensions/extension_api.py`, class `ExtensionAPI`).

The filesystem is shallowly embedded: the extensions root is a list of
immediate entry names (`FS.extDirs`), the backup root a list of entry names
(`FS.backupDirs`).  Identifiers, messages and path fragments are modelled as
`List Char` (Python strings are character sequences).  Calls into external
collaborators (`shutil.copytree`, `shutil.rmtree`, `git.Repo.clone_from`,
`requests.get` + `zipfile` extraction, the post-install subprocess and the
wall clock) are resolved through an effect oracle `Env`: an `Option Str`
field of `none` means the call succeeds, `some e` means it raises an
exception whose text is `e`.  Python exceptions are `Except` values carrying
the filesystem state at the raise point together with the exception text;
each public operation catches them at its boundary exactly where the source
has its `try`/`except`.  `str(e)` for the `HTTPException`s the source raises
is modelled as the exception's `detail` string (the status-code wrapper is
elided).  A failed `git` clone is modelled as creating nothing at the target
path, and `os.rename` fails iff the source entry is absent or the target
entry is present.
-/

namespace ExtensionApi

/-- Python strings as character lists. -/
abbrev Str := List Char

/-- The literal `disabled_` naming-convention marker. -/
def disabledMarker : Str := "disabled_".data

/-- `extension_id.startswith('disabled_')`. -/
def startsWithDisabled (s : Str) : Bool := s.take 9 = disabledMarker

/-- `item.startswith('.')`. -/
def startsWithDot (s : Str) : Bool := s.take 1 = ".".data

/-- A wall-clock instant as `datetime.now()` exposes it, at second resolution. -/
structure DateTime where
  year : Nat
  month : Nat
  day : Nat
  hour : Nat
  minute : Nat
  second : Nat
deriving Repr, DecidableEq

/-- Decimal rendering of `n`, zero-padded on the left to width `w`. -/
def padNum (w n : Nat) : Str :=
  let ds := Nat.toDigits 10 n
  List.replicate (w - ds.length) '0' ++ ds

/-- `datetime.strftime("%Y%m%d_%H%M%S")`: the backup timestamp format. -/
def strftimeYmdHMS (t : DateTime) : Str :=
  padNum 4 t.year ++ padNum 2 t.month ++ padNum 2 t.day ++ "_".data ++
    padNum 2 t.hour ++ padNum 2 t.minute ++ padNum 2 t.second

/-- Filesystem state: whether the extensions root exists, the entry names
under it, and the entry names under the backup root. -/
structure FS where
  extRootExists : Bool
  extDirs : List Str
  backupDirs : List Str
deriving Repr, DecidableEq

/-- Outcome of `subprocess.run([python, install_script], check=True, timeout=300)`:
normal exit, `TimeoutExpired`, `CalledProcessError` (non-zero exit), or any
other exception (text attached), which `_configure_extension` does not catch. -/
inductive ScriptOutcome where
  | ok
  | timeout
  | exitFailure
  | raises (e : Str)
deriving Repr, DecidableEq

/-- Effect oracle for one operation: the clock and the outcome of each
external call site (`none` = success, `some e` = raises with text `e`). -/
structure Env where
  now : DateTime
  copytreeErr : Option Str
  rmtreeErr : Option Str
  cloneErr : Option Str
  downloadErr : Option Str
  extractErr : Option Str
  hasInstallScript : Bool
  script : ScriptOutcome
deriving Repr, DecidableEq

/-- `InstallRequest` pydantic model. -/
structure InstallRequest where
  extensionId : Str
  version : Option Str := none
  force : Bool := false
  installDependencies : Bool := true
deriving Repr, DecidableEq

/-- `ExtensionMetadata` pydantic model. -/
structure ExtensionMetadata where
  id : Str
  name : Str
  description : Str
  author : Str
  version : Str
  homepage : Str
  repository : Str
  tags : List Str
  category : Str
  sdVersions : List Str
  dependencies : List Str
  conflicts : List Str
  installUrl : Str
  installMethod : Str
  isOfficial : Bool
  downloadSize : Option Nat := none
  lastUpdated : Str
  rating : Option Nat := none
  downloadCount : Option Nat := none
deriving Repr, DecidableEq

/-- The result dictionaries the operations return: `success`, `extensionId`,
`message`, plus the optional `version` / `backupId` / `enabled` keys. -/
structure OpResult where
  success : Bool
  extensionId : Str
  message : Str
  version : Option Str := none
  backupId : Option Str := none
  enabled : Option Bool := none
deriving Repr, DecidableEq

/-- `_create_backup`: builds `{extension_id}_{reason}_{timestamp}`, copies the
extension directory to the backup root when the source exists (the copy may
raise), and returns the generated identifier either way. -/
def create_backup (env : Env) (fs : FS) (extension_id reason : Str) :
    Except Str (FS × Str) :=
  let backup_id :=
    extension_id ++ "_".data ++ reason ++ "_".data ++ strftimeYmdHMS env.now
  if extension_id ∈ fs.extDirs then
    match env.copytreeErr with
    | some e => Except.error e
    | none => Except.ok ({ fs with backupDirs := backup_id :: fs.backupDirs }, backup_id)
  else
    Except.ok (fs, backup_id)

/-- `_git_clone_extension`: removes an existing target entirely, clones into
it, optionally checks out a requested version (checkout failure is caught and
logged, and checkout moves no tracked state); any failure is re-raised as
`HTTPException(500, "Git clone failed: ...")`.  Errors carry the filesystem
state at the raise point. -/
def git_clone_extension (env : Env) (fs : FS) (repo_url : Str) (extension_id : Str)
    (version : Option Str) : Except (FS × Str) FS :=
  let step : Except (FS × Str) FS :=
    (if extension_id ∈ fs.extDirs then
        match env.rmtreeErr with
        | some e => Except.error (fs, e)
        | none => Except.ok { fs with extDirs := fs.extDirs.erase extension_id }
      else Except.ok fs).bind fun fs1 =>
      match env.cloneErr with
      | some e => Except.error (fs1, e)
      | none => Except.ok { fs1 with extDirs := extension_id :: fs1.extDirs }
  match step with
  | Except.ok fs2 => Except.ok fs2
  | Except.error (fse, e) => Except.error (fse, "Git clone failed: ".data ++ e)

/-- `_download_and_extract`: streamed download to a temp file, then archive
extraction into the target (which may already exist); any failure is
re-raised as `HTTPException(500, "Download failed: ...")`.  The temp-file
lifecycle is not tracked. -/
def download_and_extract (env : Env) (fs : FS) (download_url : Str)
    (extension_id : Str) : Except (FS × Str) FS :=
  let step : Except (FS × Str) FS :=
    match env.downloadErr with
    | some e => Except.error (fs, e)
    | none =>
      match env.extractErr with
      | some e => Except.error (fs, e)
      | none =>
        Except.ok { fs with extDirs :=
          if extension_id ∈ fs.extDirs then fs.extDirs
          else extension_id :: fs.extDirs }
  match step with
  | Except.ok fs2 => Except.ok fs2
  | Except.error (fse, e) => Except.error (fse, "Download failed: ".data ++ e)

/-- `_configure_extension`: when an `install.py` exists at the target root it
is run with a 300-second timeout; `TimeoutExpired` and `CalledProcessError`
are caught and only logged, any other exception propagates. -/
def configure_extension (env : Env) (fs : FS) (extension_id : Str) :
    Except (FS × Str) FS :=
  if env.hasInstallScript then
    match env.script with
    | ScriptOutcome.raises e => Except.error (fs, e)
    | _ => Except.ok fs
  else Except.ok fs

/-- Python `request.version or metadata.version` (`None` and the empty string
are both falsy). -/
def resolve_version (request : InstallRequest) (metadata : ExtensionMetadata) : Str :=
  match request.version with
  | none => metadata.version
  | some v => if v = [] then metadata.version else v

/-- Body of `install_extension` inside its `try`: backup when the target
exists, dispatch on the install method (an unsupported method raises
`HTTPException(400, ...)`), dependency installation (a print-only
placeholder), then post-install configuration. -/
def install_go (env : Env) (fs : FS) (request : InstallRequest)
    (metadata : ExtensionMetadata) : Except (FS × Str) FS :=
  (if request.extensionId ∈ fs.extDirs then
      match create_backup env fs request.extensionId "before_install".data with
      | Except.error e => Except.error (fs, e)
      | Except.ok (fs1, _) => Except.ok fs1
    else Except.ok fs).bind fun fs1 =>
  (if metadata.installMethod = "git_clone".data then
      git_clone_extension env fs1 metadata.repository request.extensionId request.version
    else if metadata.installMethod = "download_zip".data then
      download_and_extract env fs1 metadata.installUrl request.extensionId
    else
      Except.error (fs1, "Unsupported install method: ".data ++ metadata.installMethod)).bind
    fun fs2 =>
  configure_extension env fs2 request.extensionId

/-- `install_extension`: the body's outcome converted at the operation
boundary into a success / failure result dictionary. -/
def install_extension (env : Env) (fs : FS) (request : InstallRequest)
    (metadata : ExtensionMetadata) : FS × OpResult :=
  match install_go env fs request metadata with
  | Except.ok fs2 =>
    (fs2, { success := true, extensionId := request.extensionId,
            version := some (resolve_version request metadata),
            message := "Successfully installed ".data ++ metadata.name })
  | Except.error (fs2, e) =>
    (fs2, { success := false, extensionId := request.extensionId,
            message := "Installation failed: ".data ++ e })

/-- Body of `uninstall_extension` after the existence check: `before_uninstall`
backup, then `shutil.rmtree` of the extension directory. -/
def uninstall_go (env : Env) (fs : FS) (extension_id : Str) :
    Except (FS × Str) (FS × Str) :=
  match create_backup env fs extension_id "before_uninstall".data with
  | Except.error e => Except.error (fs, e)
  | Except.ok (fs1, backup_id) =>
    match env.rmtreeErr with
    | some e => Except.error (fs1, e)
    | none => Except.ok ({ fs1 with extDirs := fs1.extDirs.erase extension_id }, backup_id)

/-- `uninstall_extension`: not-found failure result when the directory is
absent; otherwise backup, delete, and success with the backup identifier,
any exception becoming a failure result at the boundary. -/
def uninstall_extension (env : Env) (fs : FS) (extension_id : Str) : FS × OpResult :=
  if extension_id ∈ fs.extDirs then
    match uninstall_go env fs extension_id with
    | Except.ok (fs1, backup_id) =>
      (fs1, { success := true, extensionId := extension_id,
              message := "Extension uninstalled successfully".data,
              backupId := some backup_id })
    | Except.error (fs1, e) =>
      (fs1, { success := false, extensionId := extension_id,
              message := "Uninstallation failed: ".data ++ e })
  else
    (fs, { success := false, extensionId := extension_id,
           message := "Extension not found".data })

/-- `os.rename` on entries of the extensions root: fails when the source is
absent or the target name is already taken, else renames in place. -/
def os_rename (fs : FS) (src dst : Str) : Except Str FS :=
  if src ∈ fs.extDirs then
    if dst ∈ fs.extDirs then Except.error "FileExistsError".data
    else Except.ok { fs with extDirs := dst :: fs.extDirs.erase src }
  else Except.error "FileNotFoundError".data

/-- Body of `toggle_extension` inside its `try`: a rename only when the name
does not already encode the requested state (`disabled_` stripped via
`extension_id[9:]`, added via string formatting). -/
def toggle_go (fs : FS) (extension_id : Str) (enabled : Bool) :
    Except (FS × Str) FS :=
  if enabled then
    if startsWithDisabled extension_id then
      match os_rename fs extension_id (extension_id.drop 9) with
      | Except.error e => Except.error (fs, e)
      | Except.ok fs1 => Except.ok fs1
    else Except.ok fs
  else
    if startsWithDisabled extension_id then Except.ok fs
    else
      match os_rename fs extension_id (disabledMarker ++ extension_id) with
      | Except.error e => Except.error (fs, e)
      | Except.ok fs1 => Except.ok fs1

/-- `toggle_extension`: the rename outcome converted at the boundary into a
success / failure result dictionary. -/
def toggle_extension (fs : FS) (extension_id : Str) (enabled : Bool) :
    FS × OpResult :=
  match toggle_go fs extension_id enabled with
  | Except.ok fs1 =>
    (fs1, { success := true, extensionId := extension_id, enabled := some enabled,
            message := (if enabled then "Extension enabled" else "Extension disabled").data })
  | Except.error (fs1, e) =>
    (fs1, { success := false, extensionId := extension_id,
            message := "Toggle failed: ".data ++ e })

/-- One `os.listdir` entry of the extensions root as the scanner sees it:
name, directory flag, presence of the four validity markers, the short hash
of the most recent commit when the directory is a git checkout, and the
directory creation timestamp (already ISO-formatted). -/
structure DirEnt where
  name : Str
  isDir : Bool
  hasInstallPy : Bool
  hasScriptsDir : Bool
  hasInitPy : Bool
  hasReadme : Bool
  gitShortHash : Option Str := none
  ctime : Str := []
deriving Repr, DecidableEq

/-- The extensions root as the scanner sees it. -/
structure ScanFS where
  rootExists : Bool
  entries : List DirEnt
deriving Repr, DecidableEq

/-- `InstalledExtension` pydantic model. -/
structure InstalledExtension where
  id : Str
  name : Str
  version : Str
  path : Str
  isEnabled : Bool
  installedDate : Str
  lastUsed : Option Str := none
  hasUpdates : Bool
deriving Repr, DecidableEq

/-- One step of `str.title()`: a cased letter is uppercased after a non-letter
and lowercased after a letter. -/
def titleChar (prevAlpha : Bool) (c : Char) : Char :=
  if prevAlpha then c.toLower else c.toUpper

/-- `str.title()` over a character list (ASCII casing). -/
def titleCase : Bool → Str → Str
  | _, [] => []
  | prevAlpha, c :: rest => titleChar prevAlpha c :: titleCase c.isAlpha rest

/-- `ext_id.replace('-', ' ').replace('_', ' ').title()`. -/
def humanize (s : Str) : Str :=
  titleCase false (s.map fun c => if c = '-' ∨ c = '_' then ' ' else c)

/-- The `any(os.path.exists(...))` check over
`['install.py', 'scripts/', '__init__.py', 'README.md']`. -/
def has_valid_structure (d : DirEnt) : Bool :=
  d.hasInstallPy || d.hasScriptsDir || d.hasInitPy || d.hasReadme

/-- `_parse_extension_info`: `none` when the directory lacks every validity
marker, else the derived `InstalledExtension` record. -/
def parse_extension_info (ext_id : Str) (d : DirEnt) : Option InstalledExtension :=
  if has_valid_structure d then
    some { id := ext_id,
           name := humanize ext_id,
           version := d.gitShortHash.getD "unknown".data,
           path := "extensions/".data ++ ext_id,
           isEnabled := !(startsWithDisabled ext_id),
           installedDate := d.ctime,
           hasUpdates := false }
  else none

/-- `_scan_installed_extensions`: empty when the root is missing, else the
directory entries not starting with a dot, parsed, invalid ones skipped. -/
def scan_installed_extensions (fs : ScanFS) : List InstalledExtension :=
  if fs.rootExists then
    fs.entries.filterMap fun d =>
      if d.isDir && !(startsWithDot d.name) then parse_extension_info d.name d else none
  else []

/-! ### Helper lemmas about the `disabled_` marker -/

theorem disabledMarker_length : disabledMarker.length = 9 := by decide

theorem startsWithDisabled_marker_append (x : Str) :
    startsWithDisabled (disabledMarker ++ x) = true := by
  simp only [startsWithDisabled, decide_eq_true_eq]
  exact List.take_left' disabledMarker_length

theorem drop_nine_marker_append (x : Str) : (disabledMarker ++ x).drop 9 = x :=
  List.drop_left' disabledMarker_length

theorem marker_append_ne_self (x : Str) : disabledMarker ++ x ≠ x := by
  intro h
  have h2 := congrArg List.length h
  rw [List.length_append, disabledMarker_length] at h2
  omega

theorem startsWithDisabled_iff (s : Str) :
    startsWithDisabled s = true ↔ s.take 9 = disabledMarker := by
  simp [startsWithDisabled]

/-! ### Claim theorems -/

/-- Claim C1: each public operation (install, uninstall, toggle) is a total
function returning a result whose `success` field distinguishes the outcome;
every internal exception is caught at the operation boundary and converted
into a failure result whose message carries the error text. -/
theorem operations_never_raise_uniform_results
    (env : Env) (fs : FS) (request : InstallRequest) (metadata : ExtensionMetadata)
    (extension_id : Str) (enabled : Bool) :
    ((install_extension env fs request metadata).2.success = true ∨
      ∃ e, (install_extension env fs request metadata).2.success = false ∧
        (install_extension env fs request metadata).2.message =
          "Installation failed: ".data ++ e) ∧
    ((uninstall_extension env fs extension_id).2.success = true ∨
      ((uninstall_extension env fs extension_id).2.success = false ∧
        ((uninstall_extension env fs extension_id).2.message = "Extension not found".data ∨
          ∃ e, (uninstall_extension env fs extension_id).2.message =
            "Uninstallation failed: ".data ++ e))) ∧
    ((toggle_extension fs extension_id enabled).2.success = true ∨
      ∃ e, (toggle_extension fs extension_id enabled).2.success = false ∧
        (toggle_extension fs extension_id enabled).2.message =
          "Toggle failed: ".data ++ e) := by
  refine ⟨?_, ?_, ?_⟩
  · cases h : install_go env fs request metadata with
    | ok fs2 => left; simp [install_extension, h]
    | error p =>
      obtain ⟨f, e⟩ := p
      right
      exact ⟨e, by simp [install_extension, h], by simp [install_extension, h]⟩
  · by_cases hm : extension_id ∈ fs.extDirs
    · cases h : uninstall_go env fs extension_id with
      | ok p =>
        obtain ⟨f, b⟩ := p
        left
        simp [uninstall_extension, hm, h]
      | error p =>
        obtain ⟨f, e⟩ := p
        right
        refine ⟨by simp [uninstall_extension, hm, h], Or.inr ⟨e, ?_⟩⟩
        simp [uninstall_extension, hm, h]
    · right
      exact ⟨by simp [uninstall_extension, hm], Or.inl (by simp [uninstall_extension, hm])⟩
  · cases h : toggle_go fs extension_id enabled with
    | ok fs1 => left; simp [toggle_extension, h]
    | error p =>
      obtain ⟨f, e⟩ := p
      right
      exact ⟨e, by simp [toggle_extension, h], by simp [toggle_extension, h]⟩

theorem scan_step (d : DirEnt) :
    (if d.isDir && !(startsWithDot d.name) then parse_extension_info d.name d
      else none).map (fun e => e.id) =
      if d.isDir && !(startsWithDot d.name) && has_valid_structure d then some d.name
      else none := by
  cases hdir : d.isDir <;> cases hdot : startsWithDot d.name <;>
    cases hv : has_valid_structure d <;> simp [parse_extension_info, hdir, hdot, hv]

theorem filterMap_if_name (p : DirEnt → Bool) (es : List DirEnt) :
    es.filterMap (fun d => if p d then some d.name else none) =
      (es.filter p).map (fun d => d.name) := by
  induction es with
  | nil => rfl
  | cons d rest ih =>
    cases hp : p d <;> simp [List.filterMap_cons, List.filter_cons, hp, ih]

theorem scan_ids (es : List DirEnt) :
    (es.filterMap fun d =>
        if d.isDir && !(startsWithDot d.name) then parse_extension_info d.name d
        else none).map (fun e => e.id) =
      (es.filter fun d =>
        d.isDir && !(startsWithDot d.name) && has_valid_structure d).map
        (fun d => d.name) := by
  rw [List.map_filterMap]
  simp only [scan_step]
  exact filterMap_if_name _ es

/-- Claim C5: scanning a missing extensions root yields the empty list, and
scanning an existing root reports exactly the immediate subdirectories whose
name does not start with a dot and which carry at least one of the four
validity markers; all other entries are skipped without error. -/
theorem scan_reports_exactly_valid_nondot_subdirectories (es : List DirEnt) :
    scan_installed_extensions ⟨false, es⟩ = [] ∧
    (scan_installed_extensions ⟨true, es⟩).map (fun e => e.id) =
      (es.filter fun d =>
        d.isDir && !(startsWithDot d.name) && has_valid_structure d).map
        (fun d => d.name) := by
  constructor
  · rfl
  · simpa [scan_installed_extensions] using scan_ids es

theorem perm_cons_erase_of_mem {l : List Str} {a : Str} (h : a ∈ l) :
    (a :: l.erase a).Perm l := by
  induction l with
  | nil => cases h
  | cons b t ih =>
    by_cases hab : b = a
    · subst hab
      rw [List.erase_cons_head]
    · rw [List.erase_cons_tail (by simpa using hab)]
      have h2 : a ∈ t := by
        rcases List.mem_cons.mp h with h3 | h3
        · exact absurd h3.symm hab
        · exact h3
      exact List.Perm.trans (List.Perm.swap b a (t.erase a)) ((ih h2).cons b)

/-! ### Concrete fixtures used by witnesses and counterexamples -/

/-- A fixed wall-clock instant. -/
def dt0 : DateTime := ⟨2026, 1, 2, 3, 4, 5⟩

/-- An environment in which every external call succeeds. -/
def okEnv : Env :=
  { now := dt0, copytreeErr := none, rmtreeErr := none, cloneErr := none,
    downloadErr := none, extractErr := none, hasInstallScript := false,
    script := ScriptOutcome.ok }

/-- An extensions root holding the single extension `foo`. -/
def fsFoo : FS := { extRootExists := true, extDirs := ["foo".data], backupDirs := [] }

/-- An empty extensions root. -/
def fsEmpty : FS := { extRootExists := true, extDirs := [], backupDirs := [] }

/-- Claim C2: for a directory name `x` without the `disabled_` marker,
`toggle(x, enabled := false)` renames it to `disabled_x`,
`toggle(disabled_x, enabled := true)` renames it back, toggling to the state
the name already encodes performs no rename and still succeeds, and the
disable/enable round trip restores the original set of directory names. -/
theorem toggle_disable_enable_roundtrip
    (fs : FS) (x : Str)
    (hx : startsWithDisabled x = false)
    (hmem : x ∈ fs.extDirs)
    (hcol : disabledMarker ++ x ∉ fs.extDirs)
    (hnd : fs.extDirs.Nodup) :
    toggle_extension fs x false =
      ({ fs with extDirs := (disabledMarker ++ x) :: fs.extDirs.erase x },
        { success := true, extensionId := x, enabled := some false,
          message := "Extension disabled".data }) ∧
    toggle_extension { fs with extDirs := (disabledMarker ++ x) :: fs.extDirs.erase x }
        (disabledMarker ++ x) true =
      ({ fs with extDirs := x :: fs.extDirs.erase x },
        { success := true, extensionId := disabledMarker ++ x, enabled := some true,
          message := "Extension enabled".data }) ∧
    (x :: fs.extDirs.erase x).Perm fs.extDirs ∧
    toggle_extension fs x true =
      (fs, { success := true, extensionId := x, enabled := some true,
             message := "Extension enabled".data }) ∧
    toggle_extension fs (disabledMarker ++ x) false =
      (fs, { success := true, extensionId := disabledMarker ++ x, enabled := some false,
             message := "Extension disabled".data }) := by
  have hm1 : (disabledMarker ++ x) ∈
      ((disabledMarker ++ x) :: fs.extDirs.erase x) := List.mem_cons_self _ _
  have hxne : x ∉ ((disabledMarker ++ x) :: fs.extDirs.erase x) := by
    intro hmem2
    rcases List.mem_cons.mp hmem2 with h | h
    · exact marker_append_ne_self x h.symm
    · exact hnd.not_mem_erase h
  refine ⟨?_, ?_, ?_, ?_, ?_⟩
  · simp [toggle_extension, toggle_go, os_rename, hx, hmem, hcol]
  · simp [toggle_extension, toggle_go, os_rename, startsWithDisabled_marker_append x,
      drop_nine_marker_append x, hm1, hxne, List.erase_cons_head]
  · exact perm_cons_erase_of_mem hmem
  · simp [toggle_extension, toggle_go, hx]
  · simp [toggle_extension, toggle_go, startsWithDisabled_marker_append x]

/-- Witness for `toggle_disable_enable_roundtrip` at the concrete extension
`foo` in a one-entry extensions root. -/
theorem toggle_disable_enable_roundtrip_witness :
    startsWithDisabled "foo".data = false ∧ "foo".data ∈ fsFoo.extDirs ∧
    disabledMarker ++ "foo".data ∉ fsFoo.extDirs ∧ fsFoo.extDirs.Nodup ∧
    (toggle_extension fsFoo "foo".data false =
      ({ fsFoo with extDirs :=
          (disabledMarker ++ "foo".data) :: fsFoo.extDirs.erase "foo".data },
        { success := true, extensionId := "foo".data, enabled := some false,
          message := "Extension disabled".data }) ∧
    toggle_extension
        { fsFoo with extDirs :=
            (disabledMarker ++ "foo".data) :: fsFoo.extDirs.erase "foo".data }
        (disabledMarker ++ "foo".data) true =
      ({ fsFoo with extDirs := "foo".data :: fsFoo.extDirs.erase "foo".data },
        { success := true, extensionId := disabledMarker ++ "foo".data,
          enabled := some true, message := "Extension enabled".data }) ∧
    ("foo".data :: fsFoo.extDirs.erase "foo".data).Perm fsFoo.extDirs ∧
    toggle_extension fsFoo "foo".data true =
      (fsFoo, { success := true, extensionId := "foo".data, enabled := some true,
                message := "Extension enabled".data }) ∧
    toggle_extension fsFoo (disabledMarker ++ "foo".data) false =
      (fsFoo, { success := true, extensionId := disabledMarker ++ "foo".data,
                enabled := some false, message := "Extension disabled".data })) :=
  ⟨by decide, by decide, by decide, by decide,
    toggle_disable_enable_roundtrip fsFoo "foo".data (by decide) (by decide)
      (by decide) (by decide)⟩

/-- Claim C10: when the identifier already encodes the requested state,
toggle succeeds and leaves the filesystem untouched -- without any existence
check, for an arbitrary extensions root, so no not-found failure can arise. -/
theorem toggle_matching_state_ignores_filesystem
    (fs : FS) (x : Str) (hx : startsWithDisabled x = false) :
    toggle_extension fs x true =
      (fs, { success := true, extensionId := x, enabled := some true,
             message := "Extension enabled".data }) ∧
    toggle_extension fs (disabledMarker ++ x) false =
      (fs, { success := true, extensionId := disabledMarker ++ x, enabled := some false,
             message := "Extension disabled".data }) := by
  constructor
  · simp [toggle_extension, toggle_go, hx]
  · simp [toggle_extension, toggle_go, startsWithDisabled_marker_append x]

/-- Witness for `toggle_matching_state_ignores_filesystem` on an empty
extensions root, where neither `foo` nor `disabled_foo` exists. -/
theorem toggle_matching_state_ignores_filesystem_witness :
    startsWithDisabled "foo".data = false ∧
    (toggle_extension fsEmpty "foo".data true =
      (fsEmpty, { success := true, extensionId := "foo".data, enabled := some true,
                  message := "Extension enabled".data }) ∧
    toggle_extension fsEmpty (disabledMarker ++ "foo".data) false =
      (fsEmpty, { success := true, extensionId := disabledMarker ++ "foo".data,
                  enabled := some false, message := "Extension disabled".data })) :=
  ⟨by decide, toggle_matching_state_ignores_filesystem fsEmpty "foo".data (by decide)⟩

/-- Metadata fixture parametrised by install method. -/
def sampleMeta (method : Str) : ExtensionMetadata :=
  { id := "foo".data, name := "Foo".data, description := [], author := [],
    version := "1.0".data, homepage := [], repository := "https://example/repo.git".data,
    tags := [], category := [], sdVersions := [], dependencies := [], conflicts := [],
    installUrl := "https://example/foo.zip".data, installMethod := method,
    isOfficial := false, lastUpdated := [] }

/-- Install request fixture for the extension `foo`. -/
def fooRequest : InstallRequest := { extensionId := "foo".data }

/-- An environment whose `shutil.copytree` raises. -/
def copyFailEnv : Env := { okEnv with copytreeErr := some "disk full".data }

/-- An environment whose `git.Repo.clone_from` raises. -/
def cloneFailEnv : Env := { okEnv with cloneErr := some "network unreachable".data }

/-- Counterexample to claim C3 as stated: when the target directory already
exists, install with an unsupported method still creates a `before_install`
backup directory before failing, so a filesystem mutation does occur. -/
theorem install_unsupported_method_mutates_counterexample :
    (install_extension okEnv fsFoo fooRequest (sampleMeta "usb".data)).2.success = false ∧
    fsFoo.backupDirs = [] ∧
    (install_extension okEnv fsFoo fooRequest (sampleMeta "usb".data)).1.backupDirs ≠ [] := by
  decide

/-- Claim C3 (amended): install with an install method outside
git_clone/download_zip returns a failure result whose message names the
unsupported method; when the target directory did not exist beforehand no
filesystem mutation occurs at all -- the target still does not exist and no
backup or other directory is created. -/
theorem install_unsupported_method_no_mutation_when_target_absent
    (env : Env) (fs : FS) (request : InstallRequest) (metadata : ExtensionMetadata)
    (hm1 : metadata.installMethod ≠ "git_clone".data)
    (hm2 : metadata.installMethod ≠ "download_zip".data)
    (habs : request.extensionId ∉ fs.extDirs) :
    install_extension env fs request metadata =
      (fs, { success := false, extensionId := request.extensionId,
             message := "Installation failed: ".data ++
               ("Unsupported install method: ".data ++ metadata.installMethod) }) := by
  simp [install_extension, install_go, habs, hm1, hm2, Except.bind]

/-- Witness for `install_unsupported_method_no_mutation_when_target_absent`
on an empty extensions root. -/
theorem install_unsupported_method_no_mutation_witness :
    (sampleMeta "usb".data).installMethod ≠ "git_clone".data ∧
    (sampleMeta "usb".data).installMethod ≠ "download_zip".data ∧
    "foo".data ∉ fsEmpty.extDirs ∧
    install_extension okEnv fsEmpty fooRequest (sampleMeta "usb".data) =
      (fsEmpty, { success := false, extensionId := "foo".data,
                  message := "Installation failed: ".data ++
                    ("Unsupported install method: ".data ++ "usb".data) }) :=
  ⟨by decide, by decide, by decide,
    install_unsupported_method_no_mutation_when_target_absent okEnv fsEmpty fooRequest
      (sampleMeta "usb".data) (by decide) (by decide) (by decide)⟩

/-- Claim C4: uninstalling an absent identifier yields a not-found failure
result with no backup and no deletion; uninstalling an existing extension
with all steps succeeding takes a `before_uninstall` backup, erases the
directory, and returns success carrying the backup identifier. -/
theorem uninstall_not_found_and_success
    (env : Env) (fs : FS) (x : Str) :
    (x ∉ fs.extDirs →
      uninstall_extension env fs x =
        (fs, { success := false, extensionId := x,
               message := "Extension not found".data })) ∧
    (x ∈ fs.extDirs → env.copytreeErr = none → env.rmtreeErr = none →
      uninstall_extension env fs x =
        ({ fs with
            extDirs := fs.extDirs.erase x,
            backupDirs :=
              (x ++ "_".data ++ "before_uninstall".data ++ "_".data ++
                strftimeYmdHMS env.now) :: fs.backupDirs },
          { success := true, extensionId := x,
            message := "Extension uninstalled successfully".data,
            backupId := some (x ++ "_".data ++ "before_uninstall".data ++ "_".data ++
              strftimeYmdHMS env.now) })) := by
  constructor
  · intro h
    simp [uninstall_extension, h]
  · intro hmem hc hr
    simp [uninstall_extension, uninstall_go, create_backup, hmem, hc, hr]

/-- Witness for `uninstall_not_found_and_success`: `bar` is absent from the
one-entry root and reports not-found; `foo` is present and uninstalls with a
backup. -/
theorem uninstall_not_found_and_success_witness :
    ("bar".data ∉ fsFoo.extDirs ∧
      uninstall_extension okEnv fsFoo "bar".data =
        (fsFoo, { success := false, extensionId := "bar".data,
                  message := "Extension not found".data })) ∧
    ("foo".data ∈ fsFoo.extDirs ∧ okEnv.copytreeErr = none ∧ okEnv.rmtreeErr = none ∧
      uninstall_extension okEnv fsFoo "foo".data =
        ({ fsFoo with
            extDirs := fsFoo.extDirs.erase "foo".data,
            backupDirs :=
              ("foo".data ++ "_".data ++ "before_uninstall".data ++ "_".data ++
                strftimeYmdHMS okEnv.now) :: fsFoo.backupDirs },
          { success := true, extensionId := "foo".data,
            message := "Extension uninstalled successfully".data,
            backupId := some ("foo".data ++ "_".data ++ "before_uninstall".data ++
              "_".data ++ strftimeYmdHMS okEnv.now) })) :=
  ⟨⟨by decide, (uninstall_not_found_and_success okEnv fsFoo "bar".data).1 (by decide)⟩,
    ⟨by decide, rfl, rfl,
      (uninstall_not_found_and_success okEnv fsFoo "foo".data).2 (by decide) rfl rfl⟩⟩

/-- Claim C6: backup always returns the identifier
`{extensionId}_{reason}_{timestamp}` built from the second-resolution clock;
when the source directory exists (and the copy succeeds) the copy is placed
under the backup root under that identifier, and when the source is absent no
backup-root entry is created yet the identifier is still returned. -/
theorem create_backup_identifier_and_copy
    (env : Env) (fs : FS) (x reason : Str) (hc : env.copytreeErr = none) :
    create_backup env fs x reason =
      Except.ok
        (if x ∈ fs.extDirs then
            { fs with backupDirs :=
                (x ++ "_".data ++ reason ++ "_".data ++ strftimeYmdHMS env.now) ::
                  fs.backupDirs }
          else fs,
          x ++ "_".data ++ reason ++ "_".data ++ strftimeYmdHMS env.now) := by
  by_cases hmem : x ∈ fs.extDirs <;> simp [create_backup, hmem, hc]

/-- Witness for `create_backup_identifier_and_copy` at a present source
(`foo`) with reason `before_install`. -/
theorem create_backup_identifier_and_copy_witness :
    okEnv.copytreeErr = none ∧
    create_backup okEnv fsFoo "foo".data "before_install".data =
      Except.ok
        (if "foo".data ∈ fsFoo.extDirs then
            { fsFoo with backupDirs :=
                ("foo".data ++ "_".data ++ "before_install".data ++ "_".data ++
                  strftimeYmdHMS okEnv.now) :: fsFoo.backupDirs }
          else fsFoo,
          "foo".data ++ "_".data ++ "before_install".data ++ "_".data ++
            strftimeYmdHMS okEnv.now) :=
  ⟨rfl, create_backup_identifier_and_copy okEnv fsFoo "foo".data "before_install".data rfl⟩

/-- Claim C7: when the backup copy raises during uninstall of an existing
extension, uninstall returns a failure result carrying the error text, the
filesystem is unchanged, and in particular the extension directory has not
been deleted. -/
theorem uninstall_backup_failure_preserves_state
    (env : Env) (fs : FS) (x e : Str)
    (hmem : x ∈ fs.extDirs) (hc : env.copytreeErr = some e) :
    uninstall_extension env fs x =
      (fs, { success := false, extensionId := x,
             message := "Uninstallation failed: ".data ++ e }) ∧
    x ∈ (uninstall_extension env fs x).1.extDirs := by
  have h : uninstall_extension env fs x =
      (fs, { success := false, extensionId := x,
             message := "Uninstallation failed: ".data ++ e }) := by
    simp [uninstall_extension, uninstall_go, create_backup, hmem, hc]
  exact ⟨h, by rw [h]; exact hmem⟩

/-- Witness for `uninstall_backup_failure_preserves_state`: a disk-full
copy failure while uninstalling `foo`. -/
theorem uninstall_backup_failure_preserves_state_witness :
    "foo".data ∈ fsFoo.extDirs ∧ copyFailEnv.copytreeErr = some "disk full".data ∧
    (uninstall_extension copyFailEnv fsFoo "foo".data =
      (fsFoo, { success := false, extensionId := "foo".data,
                message := "Uninstallation failed: ".data ++ "disk full".data }) ∧
    "foo".data ∈ (uninstall_extension copyFailEnv fsFoo "foo".data).1.extDirs) :=
  ⟨by decide, rfl,
    uninstall_backup_failure_preserves_state copyFailEnv fsFoo "foo".data
      "disk full".data (by decide) rfl⟩

/-- An environment whose post-install script exists and hits the 300-second
timeout. -/
def timeoutEnv : Env :=
  { okEnv with hasInstallScript := true, script := ScriptOutcome.timeout }

/-- Claim C8: for a git_clone install over an existing target, the old
directory is removed before cloning, so when the clone then fails the install
returns a failure result, no directory exists at the target path, and the old
contents survive only in the just-taken `before_install` backup. -/
theorem install_git_clone_failure_leaves_no_target
    (env : Env) (fs : FS) (request : InstallRequest) (metadata : ExtensionMetadata)
    (e : Str)
    (hm : metadata.installMethod = "git_clone".data)
    (hmem : request.extensionId ∈ fs.extDirs)
    (hnd : fs.extDirs.Nodup)
    (hc : env.copytreeErr = none)
    (hr : env.rmtreeErr = none)
    (hg : env.cloneErr = some e) :
    (install_extension env fs request metadata).2.success = false ∧
    request.extensionId ∉ (install_extension env fs request metadata).1.extDirs ∧
    (request.extensionId ++ "_".data ++ "before_install".data ++ "_".data ++
        strftimeYmdHMS env.now) ∈
      (install_extension env fs request metadata).1.backupDirs ∧
    (install_extension env fs request metadata).2.message =
      "Installation failed: ".data ++ ("Git clone failed: ".data ++ e) := by
  have h : install_extension env fs request metadata =
      ({ fs with
          extDirs := fs.extDirs.erase request.extensionId,
          backupDirs := (request.extensionId ++ "_".data ++ "before_install".data ++
            "_".data ++ strftimeYmdHMS env.now) :: fs.backupDirs },
        { success := false, extensionId := request.extensionId,
          message := "Installation failed: ".data ++
            ("Git clone failed: ".data ++ e) }) := by
    simp [install_extension, install_go, create_backup, git_clone_extension,
      hm, hmem, hc, hr, hg, Except.bind]
  rw [h]
  exact ⟨rfl, hnd.not_mem_erase, List.mem_cons_self _ _, rfl⟩

/-- Witness for `install_git_clone_failure_leaves_no_target`: cloning over
the existing `foo` fails after the old directory was removed. -/
theorem install_git_clone_failure_leaves_no_target_witness :
    (sampleMeta "git_clone".data).installMethod = "git_clone".data ∧
    "foo".data ∈ fsFoo.extDirs ∧ fsFoo.extDirs.Nodup ∧
    cloneFailEnv.copytreeErr = none ∧ cloneFailEnv.rmtreeErr = none ∧
    cloneFailEnv.cloneErr = some "network unreachable".data ∧
    ((install_extension cloneFailEnv fsFoo fooRequest
        (sampleMeta "git_clone".data)).2.success = false ∧
      "foo".data ∉ (install_extension cloneFailEnv fsFoo fooRequest
        (sampleMeta "git_clone".data)).1.extDirs ∧
      ("foo".data ++ "_".data ++ "before_install".data ++ "_".data ++
          strftimeYmdHMS cloneFailEnv.now) ∈
        (install_extension cloneFailEnv fsFoo fooRequest
          (sampleMeta "git_clone".data)).1.backupDirs ∧
      (install_extension cloneFailEnv fsFoo fooRequest
          (sampleMeta "git_clone".data)).2.message =
        "Installation failed: ".data ++
          ("Git clone failed: ".data ++ "network unreachable".data)) :=
  ⟨rfl, by decide, by decide, rfl, rfl, rfl,
    install_git_clone_failure_leaves_no_target cloneFailEnv fsFoo fooRequest
      (sampleMeta "git_clone".data) "network unreachable".data rfl (by decide)
      (by decide) rfl rfl rfl⟩

/-- Claim C9: when materialization (clone or download+extract) succeeds, a
post-install script that times out or exits non-zero never turns the install
into a failure: the operation still returns a success result. -/
theorem install_script_misbehavior_is_nonfatal
    (env : Env) (fs : FS) (request : InstallRequest) (metadata : ExtensionMetadata)
    (hc : env.copytreeErr = none)
    (hmat : (metadata.installMethod = "git_clone".data ∧ env.rmtreeErr = none ∧
              env.cloneErr = none) ∨
            (metadata.installMethod = "download_zip".data ∧ env.downloadErr = none ∧
              env.extractErr = none))
    (hs : env.script = ScriptOutcome.timeout ∨ env.script = ScriptOutcome.exitFailure) :
    (install_extension env fs request metadata).2.success = true := by
  have hne : ("download_zip".data : Str) ≠ "git_clone".data := by decide
  rcases hmat with ⟨hm, h1, h2⟩ | ⟨hm, h1, h2⟩ <;>
    rcases hs with hs | hs <;>
    by_cases hmem : request.extensionId ∈ fs.extDirs <;>
    by_cases hscript : env.hasInstallScript <;>
    simp [install_extension, install_go, create_backup, git_clone_extension,
      download_and_extract, configure_extension, hm, h1, h2, hmem, hc, hs, hscript,
      hne, Except.bind]

/-- Witness for `install_script_misbehavior_is_nonfatal`: a successful clone
of `foo` into an empty root whose install script then times out. -/
theorem install_script_misbehavior_is_nonfatal_witness :
    timeoutEnv.copytreeErr = none ∧
    ((sampleMeta "git_clone".data).installMethod = "git_clone".data ∧
      timeoutEnv.rmtreeErr = none ∧ timeoutEnv.cloneErr = none) ∧
    timeoutEnv.script = ScriptOutcome.timeout ∧
    (install_extension timeoutEnv fsEmpty fooRequest
      (sampleMeta "git_clone".data)).2.success = true :=
  ⟨rfl, ⟨rfl, rfl, rfl⟩, rfl,
    install_script_misbehavior_is_nonfatal timeoutEnv fsEmpty fooRequest
      (sampleMeta "git_clone".data) rfl (Or.inl ⟨rfl, rfl, rfl⟩) (Or.inl rfl)⟩

end ExtensionApi
